import Mathlib

/-!
Shallow embedding of the permsearch repository (src/src/input_parser.rs,
src/src/lib.rs) in Lean 4, with theorems settling the frozen claims about
its specification.

Modelling conventions:
* Rust `u32` values (owner/group ids, mode bits) are modelled as `Nat`;
  the only place the 32-bit bound matters is `str::parse::<u32>`, which is
  modelled explicitly as a bound check against 4294967295.
* Rust strings are modelled as `List Char` (the parser in the source only
  slices at positions that are guaranteed ASCII, so char indexing and byte
  indexing agree on every path the code takes).
* The regex `^.*u(\d+).*$` of `FilterSet::from_str` is embedded directly:
  with Rust's default regex semantics `.` does not match a newline and the
  leading `.*` is greedy, so on newline-free input the capture is the digit
  run following the LAST occurrence of the marker letter that is
  immediately followed by a digit, and on input containing a newline there
  is no match at all.  `\d` is modelled as an ASCII decimal digit
  (`Char.isDigit`); Rust's `\d` is Unicode-aware, so the model is faithful
  on ASCII input, which is the domain all claims quantify over.
* Filesystem effects of the tree walker (lib.rs) are modelled by an
  explicit tree type whose nodes carry the outcome of `Path::metadata`
  (`Except String NodeMeta`), the outcome of `fs::read_dir`, and per-child
  `DirEntry` failures; printed violation lines and access warnings become
  an explicit event list.
-/

deriving instance DecidableEq for Except

namespace Permsearch

/-- Tri-state of one permission bit (input_parser.rs, `PermissionState`). -/
inductive PermissionState where
  | SET
  | UNSET
  | WILDCARD
deriving DecidableEq, Repr

/-- One user-class slice: read/write/execute
(input_parser.rs, `PartialPermissionBlock`). -/
structure PartialPermissionBlock where
  read : PermissionState
  write : PermissionState
  execute : PermissionState
deriving DecidableEq, Repr

/-- Full 9-bit permission state (input_parser.rs, `PermissionBlock`). -/
structure PermissionBlock where
  user : PartialPermissionBlock
  group : PartialPermissionBlock
  other : PartialPermissionBlock
deriving DecidableEq, Repr

/-- One policy clause (input_parser.rs, `Filter`). -/
structure Filter where
  user_owner : Option Nat
  group_owner : Option Nat
  permissions : Option PermissionBlock
deriving DecidableEq, Repr

/-- Parsed policy: ordered clause collection (input_parser.rs, `FilterSet`). -/
structure FilterSet where
  filters : List Filter
deriving DecidableEq, Repr

/-- One position of `PartialPermissionBlock::is_compatible`'s loop body:
the position passes when either side is a wildcard or the two states are
equal (a `continue` in the source is a pass, an inequality returns false). -/
def checkPos (a b : PermissionState) : Bool :=
  if a = PermissionState.WILDCARD ∨ b = PermissionState.WILDCARD then true
  else a = b

/-- Embedding of `PartialPermissionBlock::is_compatible`
(input_parser.rs lines 156-172): the loop over read/write/execute with an
early `return false` is the conjunction of the per-position checks. -/
def PartialPermissionBlock.is_compatible (self other : PartialPermissionBlock) : Bool :=
  checkPos self.read other.read
    && checkPos self.write other.write
    && checkPos self.execute other.execute

/-- Embedding of `PermissionBlock::is_compatible` (input_parser.rs lines 12-18). -/
def PermissionBlock.is_compatible (self other : PermissionBlock) : Bool :=
  self.user.is_compatible other.user
    && self.group.is_compatible other.group
    && self.other.is_compatible other.other

/-- Embedding of `PartialPermissionBlock::from_st_mode_digit`
(input_parser.rs lines 79-108).  The source asserts `digit <= 7`; every
call site passes `mode % 8`, so the assertion can never fire and the
bit-extraction below is the whole behaviour on reachable inputs. -/
def from_st_mode_digit (digit : Nat) : PartialPermissionBlock :=
  let execute := if digit % 2 = 1 then PermissionState.SET else PermissionState.UNSET
  let digit := digit / 2
  let write := if digit % 2 = 1 then PermissionState.SET else PermissionState.UNSET
  let digit := digit / 2
  let read := if digit % 2 = 1 then PermissionState.SET else PermissionState.UNSET
  { read := read, write := write, execute := execute }

/-- Embedding of `From<&Metadata> for PermissionBlock`
(input_parser.rs lines 26-38): three octal digits of `st_mode`,
least-significant digit is the `other` block. -/
def permissionBlockOfMode (mode : Nat) : PermissionBlock :=
  let other := from_st_mode_digit (mode % 8)
  let mode := mode / 8
  let group := from_st_mode_digit (mode % 8)
  let mode := mode / 8
  let user := from_st_mode_digit (mode % 8)
  { user := user, group := group, other := other }

/-- One character of the `Display` impl for `PartialPermissionBlock`
(input_parser.rs lines 64-76): Set renders as the position's letter,
Unset as a dash, Wildcard as a star. -/
def stateChar (letter : Char) : PermissionState → Char
  | PermissionState.SET => letter
  | PermissionState.UNSET => '-'
  | PermissionState.WILDCARD => '*'

/-- Rendering of one user-class slice (`Display for PartialPermissionBlock`). -/
def PartialPermissionBlock.render (p : PartialPermissionBlock) : List Char :=
  [stateChar 'r' p.read, stateChar 'w' p.write, stateChar 'x' p.execute]

/-- Rendering of a full block (`Display for PermissionBlock`,
input_parser.rs lines 40-48): user, then group, then other. -/
def PermissionBlock.render (p : PermissionBlock) : List Char :=
  p.user.render ++ p.group.render ++ p.other.render

/-- Embedding of one iteration of the position loop in
`PartialPermissionBlock::safe_from_chars` (input_parser.rs lines 127-151):
reject any character other than the position's letter, dash or star, then
map star to Wildcard, dash to Unset, and the letter to Set. -/
def parse_perm_char (expected c : Char) : Except String PermissionState :=
  if ¬(c = expected ∨ c = '-' ∨ c = '*') then
    Except.error ("Invalid character " ++ String.mk [c] ++ " in permission block.")
  else if c = '*' then Except.ok PermissionState.WILDCARD
  else if c = '-' then Except.ok PermissionState.UNSET
  else Except.ok PermissionState.SET

/-- Embedding of `PartialPermissionBlock::safe_from_chars`
(input_parser.rs lines 110-154): the ASCII check comes first (so the byte
length used by the source equals the char length here), then the length
check, then the three positions in order. -/
def safe_from_chars (chars : List Char) : Except String PartialPermissionBlock :=
  if ¬ chars.all (fun c => c.toNat < 128) then
    Except.error "Non-ascii characters provided."
  else
    match chars with
    | [c0, c1, c2] =>
        match parse_perm_char 'r' c0 with
        | Except.error e => Except.error e
        | Except.ok read =>
          match parse_perm_char 'w' c1 with
          | Except.error e => Except.error e
          | Except.ok write =>
            match parse_perm_char 'x' c2 with
            | Except.error e => Except.error e
            | Except.ok execute =>
                Except.ok { read := read, write := write, execute := execute }
    | _ => Except.error "Permission block has an invalid number of characters (!= 3)."

/-- Whether one 3-character group fits the alternatives of the anchor regex
`((r|-|\*)(w|-|\*)(x|-|\*))`. -/
def group_chars_match (a b c : Char) : Bool :=
  (a == 'r' || a == '-' || a == '*')
    && (b == 'w' || b == '-' || b == '*')
    && (c == 'x' || c == '-' || c == '*')

/-- Embedding of `Regex::new(r"...").is_match(part)` for the anchored
pattern `^((r|-|\*)(w|-|\*)(x|-|\*)){3}` of `FilterSet::from_str`
(input_parser.rs line 230): the part starts with nine characters drawn
from the per-position alternatives (anything may follow). -/
def permPatternMatch : List Char → Bool
  | a :: b :: c :: d :: e :: f :: g :: h :: i :: _ =>
      group_chars_match a b c && group_chars_match d e f && group_chars_match g h i
  | _ => false

/-- Embedding of the pattern-extraction branch of `FilterSet::from_str`
(input_parser.rs lines 231-244): the three 3-character slices are decoded
in order.  The source's byte slices `part.get(..3)` etc. cannot fail on
this path because the anchor regex guarantees nine leading ASCII
characters; `take`/`drop` model the successful slices. -/
def parsePermPattern (cs : List Char) : Except String PermissionBlock :=
  match safe_from_chars (cs.take 3) with
  | Except.error e => Except.error e
  | Except.ok user =>
    match safe_from_chars ((cs.drop 3).take 3) with
    | Except.error e => Except.error e
    | Except.ok group =>
      match safe_from_chars ((cs.drop 6).take 3) with
      | Except.error e => Except.error e
      | Except.ok other => Except.ok { user := user, group := group, other := other }

/-- Longest run of ASCII decimal digits at the head of the list
(the greedy `\d+` starting at a fixed position). -/
def digitRun : List Char → List Char
  | [] => []
  | c :: rest => if c.isDigit then c :: digitRun rest else []

/-- Numeric value of a digit run (what `str::parse` computes when in range). -/
def digitsToNat (ds : List Char) : Nat :=
  ds.foldl (fun acc c => 10 * acc + (c.toNat - 48)) 0

/-- Capture of the greedy regex `^.*m(\d+).*$` on newline-free input:
later occurrences take priority (the leading `.*` is greedy), and the
capture is the maximal digit run after the chosen marker. -/
def markerCaptureAux (m : Char) : List Char → Option (List Char)
  | [] => none
  | c :: rest =>
    match markerCaptureAux m rest with
    | some ds => some ds
    | none =>
        if c = m ∧ digitRun rest ≠ [] then some (digitRun rest) else none

/-- Embedding of the capture group of `Regex::new(r"^.*u(\d+).*$")`
applied to a clause (input_parser.rs lines 249-268, with `u` or `g` as the
marker `m`): with Rust's default semantics `.` never matches a newline and
the whole haystack must be covered, so a part containing a newline has no
match at all; otherwise the greedy leading `.*` selects the last marker
occurrence that is immediately followed by a digit. -/
def markerCapture (m : Char) (cs : List Char) : Option (List Char) :=
  if '\n' ∈ cs then none else markerCaptureAux m cs

/-- Modelled from the spec: the spec's words for the marker rule say "the
first occurrence of lowercase `u` immediately followed by one or more
decimal digits anywhere in the clause substring".  This definition follows
those words (first occurrence wins) and exists only to be compared with
the source-derived `markerCapture`. -/
def firstMarkerCapture (m : Char) : List Char → Option (List Char)
  | [] => none
  | c :: rest =>
      if c = m ∧ digitRun rest ≠ [] then some (digitRun rest)
      else firstMarkerCapture m rest

/-- Embedding of `str::parse::<u32>` on a nonempty ASCII digit run: the
value if it fits in 32 bits, a hard error otherwise. -/
def parseU32 (ds : List Char) : Except String Nat :=
  if digitsToNat ds ≤ 4294967295 then Except.ok (digitsToNat ds)
  else Except.error "number too large to fit in target type"

/-- Embedding of one marker extraction of `FilterSet::from_str`
(input_parser.rs lines 249-268): when the regex captures a digit run it
is parsed as a `u32` and a parse failure propagates as a hard error;
with no capture the field is absent. -/
def markerValue (m : Char) (part : List Char) : Except String (Option Nat) :=
  match markerCapture m part with
  | some ds =>
      match parseU32 ds with
      | Except.error e => Except.error e
      | Except.ok v => Except.ok (some v)
  | none => Except.ok none

/-- Embedding of one iteration of the clause loop of `FilterSet::from_str`
(input_parser.rs lines 228-279): permission pattern first, then the `u`
marker, then the `g` marker (errors propagate in that order); a clause
with no field at all is dropped (`Except.ok none`). -/
def parsePart (part : List Char) : Except String (Option Filter) :=
  match (if permPatternMatch part then (parsePermPattern part).map Option.some
         else Except.ok none) with
  | Except.error e => Except.error e
  | Except.ok permissions =>
    match markerValue 'u' part with
    | Except.error e => Except.error e
    | Except.ok user_owner =>
      match markerValue 'g' part with
      | Except.error e => Except.error e
      | Except.ok group_owner =>
        if user_owner = none ∧ group_owner = none ∧ permissions = none then
          Except.ok none
        else
          Except.ok (some { user_owner := user_owner, group_owner := group_owner,
                            permissions := permissions })

/-- The clause loop of `FilterSet::from_str` over the split parts, in
order; the first error aborts the whole parse. -/
def from_str_parts : List (List Char) → Except String (List Filter)
  | [] => Except.ok []
  | p :: rest =>
      match parsePart p with
      | Except.error e => Except.error e
      | Except.ok (some f) =>
          match from_str_parts rest with
          | Except.error e => Except.error e
          | Except.ok others => Except.ok (f :: others)
      | Except.ok none => from_str_parts rest

/-- Embedding of Rust's `str::split(',')`: the empty string yields one
empty part, and every comma yields one additional part. -/
def splitComma : List Char → List (List Char)
  | [] => [[]]
  | c :: rest =>
      match splitComma rest with
      | [] => [[]]
      | p :: ps => if c = ',' then [] :: p :: ps else (c :: p) :: ps

/-- Embedding of `FromStr for FilterSet` (input_parser.rs lines 222-287). -/
def FilterSet.from_str (s : String) : Except String FilterSet :=
  match from_str_parts (splitComma s.data) with
  | Except.error e => Except.error e
  | Except.ok filters =>
      if filters = [] then Except.error "No valid filter provided"
      else Except.ok { filters := filters }

/-- Kind of a filesystem object as reported by dereferenced metadata
(`Metadata::is_dir` / `Metadata::is_file`); `other` covers objects that
are neither (fifos, sockets, device nodes). -/
inductive NodeKind where
  | dir
  | file
  | other
deriving DecidableEq, Repr

/-- Resolved metadata of one node: what the walker reads from a
successful `Path::metadata` call (kind, `st_uid`, `st_gid`, `st_mode`). -/
structure NodeMeta where
  kind : NodeKind
  uid : Nat
  gid : Nat
  mode : Nat
deriving DecidableEq, Repr

/-- The walker-relevant part of `cli::Args`: the two optional filter sets
and the symlink flag (`silent` only toggles the startup banner and
`base_dir` is passed separately, so neither is modelled). -/
structure Config where
  directory_filter : Option FilterSet
  file_filter : Option FilterSet
  ignore_symlinks : Bool
deriving DecidableEq, Repr

/-- Observable output of the walker: a violation line printed by
`check_object` (type character, rendered permissions, uid, gid, path) or
an access warning printed through `print_access_error`. -/
inductive Event where
  | violation (typeChar : String) (perm : PermissionBlock) (uid gid : Nat) (path : String)
  | accessWarning (msg : String)
deriving DecidableEq, Repr

mutual
/-- One filesystem node as the walker observes it: its path, the outcome
of `Path::metadata` (an error models an unreadable node or broken
symlink), the `Path::is_symlink` answer, the outcome of `fs::read_dir`
(`some msg` models an enumeration failure), and its child entries. -/
inductive FSNode where
  | mk (path : String) (meta : Except String NodeMeta) (isSymlink : Bool)
       (readDirError : Option String) (children : FSChildren)

/-- The sequence a directory's `read_dir` iterator yields: each entry is
either a readable child node or a failed `DirEntry` (`consErr`). -/
inductive FSChildren where
  | nil
  | consErr (msg : String) (rest : FSChildren)
  | consNode (child : FSNode) (rest : FSChildren)
end

/-- Path of a node. -/
def FSNode.path : FSNode → String
  | .mk p _ _ _ _ => p

/-- Metadata outcome of a node. -/
def FSNode.meta : FSNode → Except String NodeMeta
  | .mk _ m _ _ _ => m

/-- Whether the node is a symbolic link. -/
def FSNode.isSymlink : FSNode → Bool
  | .mk _ _ s _ _ => s

/-- Enumeration failure of the node, when present. -/
def FSNode.readDirError : FSNode → Option String
  | .mk _ _ _ e _ => e

/-- Child entries of the node. -/
def FSNode.children : FSNode → FSChildren
  | .mk _ _ _ _ c => c

/-- One clause check of the filter loop in `check_object`
(lib.rs lines 134-155): each present field must pass, a `continue` in the
source is a failed clause. -/
def filterMatches (filter : Filter) (uid gid : Nat) (perm : PermissionBlock) : Bool :=
  (match filter.user_owner with
   | some filter_uid => filter_uid == uid
   | none => true)
    && (match filter.group_owner with
        | some filter_gid => filter_gid == gid
        | none => true)
    && (match filter.permissions with
        | some filter_permissions => filter_permissions.is_compatible perm
        | none => true)

/-- The whole filter loop of `check_object`: the early `return Ok(())` on
the first fully applying clause makes the loop a disjunction over the
clause list. -/
def setMatches (filters : List Filter) (uid gid : Nat) (perm : PermissionBlock) : Bool :=
  filters.any (fun f => filterMatches f uid gid perm)

/-- Embedding of `check_object` (lib.rs lines 97-176).  The result is the
list of violation lines it prints (empty or a single line); a metadata
failure is the function's `Err`. -/
def check_object (node : FSNode) (config : Config) (base_dir_meta : NodeMeta)
    (is_symlink : Bool) : Except String (List Event) :=
  match node.meta with
  | Except.error e => Except.error e
  | Except.ok metadata =>
    let is_dir := metadata.kind = NodeKind.dir
    if is_dir ∧ config.directory_filter = none then Except.ok []
    else if metadata.kind = NodeKind.file ∧ config.file_filter = none then Except.ok []
    else
      let permissions := permissionBlockOfMode metadata.mode
      let filters :=
        match (if is_dir then config.directory_filter else config.file_filter) with
        | some value => value
        | none => { filters := [{ user_owner := some base_dir_meta.uid,
                                  group_owner := some base_dir_meta.gid,
                                  permissions := none }] }
      if setMatches filters.filters metadata.uid metadata.gid permissions then
        Except.ok []
      else
        let typeChar := if is_symlink then "l" else if is_dir then "d" else "-"
        Except.ok [Event.violation typeChar permissions metadata.uid metadata.gid node.path]

mutual
/-- Embedding of `run_recursive` (lib.rs lines 50-95): the pair holds the
events printed so far and `some err` when the function returns `Err`
(which the `?` operators propagate).  A `read_dir` failure is a warning
and an `Ok` return; descendants are processed by `processChildren`. -/
def run_recursive (config : Config) (base_dir_meta : NodeMeta) :
    FSNode → List Event × Option String
  | node@(FSNode.mk _ _ _ _ children) =>
    match node.meta with
    | Except.error e => ([], some e)
    | Except.ok current_meta =>
      match check_object node config base_dir_meta false with
      | Except.error e => ([], some e)
      | Except.ok evts =>
        if current_meta.kind = NodeKind.dir then
          match node.readDirError with
          | some err =>
              (evts ++ [Event.accessWarning ("accessing " ++ node.path ++ ": " ++ err)], none)
          | none =>
              let rec_result := processChildren config base_dir_meta node.path children
              (evts ++ rec_result.1, rec_result.2)
        else (evts, none)

/-- Embedding of the child loop of `run_recursive` (lib.rs lines 67-91):
a failed `DirEntry` is a warning and a `continue`; a symlink child is
checked in place (its `check_object` error becomes a warning) and never
recursed into; any other child is recursed into and an `Err` from that
recursion aborts the loop through the trailing `?`. -/
def processChildren (config : Config) (base_dir_meta : NodeMeta) (parentPath : String) :
    FSChildren → List Event × Option String
  | FSChildren.nil => ([], none)
  | FSChildren.consErr msg rest =>
      let rec_result := processChildren config base_dir_meta parentPath rest
      (Event.accessWarning ("accessing child of " ++ parentPath ++ ": " ++ msg)
         :: rec_result.1, rec_result.2)
  | FSChildren.consNode child rest =>
      if child.isSymlink then
        let myEvents :=
          if config.ignore_symlinks then []
          else
            match check_object child config base_dir_meta true with
            | Except.ok evts => evts
            | Except.error e =>
                [Event.accessWarning ("reading symlink " ++ child.path ++ ": " ++ e
                  ++ ". The symlink might be broken.")]
        let rec_result := processChildren config base_dir_meta parentPath rest
        (myEvents ++ rec_result.1, rec_result.2)
      else
        match run_recursive config base_dir_meta child with
        | (evts, some e) => (evts, some e)
        | (evts, none) =>
            let rec_result := processChildren config base_dir_meta parentPath rest
            (evts ++ rec_result.1, rec_result.2)
end

/-- Embedding of `run` (lib.rs lines 15-48) without the banner printing:
a metadata failure on the base directory is fatal before traversal. -/
def run (config : Config) (base_dir : FSNode) : List Event × Option String :=
  match base_dir.meta with
  | Except.error e => ([], some e)
  | Except.ok basedir_meta => run_recursive config basedir_meta base_dir

/-- Sanity: the source's own unit test `FilterSet::from_str("g1000")`. -/
example : FilterSet.from_str "g1000" =
    Except.ok { filters := [{ user_owner := none, group_owner := some 1000,
                              permissions := none }] } := by decide

/-- Sanity: the source's own unit test `FilterSet::from_str("---------g1000u1000")`. -/
example : FilterSet.from_str "---------g1000u1000" =
    Except.ok { filters := [{ user_owner := some 1000, group_owner := some 1000,
                              permissions := some
                                { user := ⟨.UNSET, .UNSET, .UNSET⟩,
                                  group := ⟨.UNSET, .UNSET, .UNSET⟩,
                                  other := ⟨.UNSET, .UNSET, .UNSET⟩ } }] } := by decide

/-- The permission pattern whose nine positions are all wildcards. -/
def wildcardBlock : PermissionBlock :=
  { user := ⟨.WILDCARD, .WILDCARD, .WILDCARD⟩,
    group := ⟨.WILDCARD, .WILDCARD, .WILDCARD⟩,
    other := ⟨.WILDCARD, .WILDCARD, .WILDCARD⟩ }

/-- The nine tri-states of a block in rendering order. -/
def PermissionBlock.states (b : PermissionBlock) : List PermissionState :=
  [b.user.read, b.user.write, b.user.execute,
   b.group.read, b.group.write, b.group.execute,
   b.other.read, b.other.write, b.other.execute]

theorem checkPos_eq_true (a b : PermissionState) :
    checkPos a b = true ↔
      (a = PermissionState.WILDCARD ∨ b = PermissionState.WILDCARD ∨ a = b) := by
  cases a <;> cases b <;> decide

/-- C5: the set-level outcome is the disjunction of the per-clause
outcomes (each clause the conjunction of its present fields), hence
invariant under any permutation of the clause list. -/
theorem c5_set_match_is_disjunction_and_order_invariant :
    ∀ (fs : FilterSet) (uid gid : Nat) (perm : PermissionBlock),
      (setMatches fs.filters uid gid perm = true ↔
        ∃ f ∈ fs.filters, filterMatches f uid gid perm = true)
      ∧ ∀ fs2 : FilterSet, fs.filters.Perm fs2.filters →
          setMatches fs.filters uid gid perm = setMatches fs2.filters uid gid perm := by
  intro fs uid gid perm
  constructor
  · exact List.any_eq_true
  · intro fs2 hp
    refine Bool.eq_iff_iff.mpr ?_
    simp only [setMatches, List.any_eq_true]
    constructor
    · rintro ⟨f, hf, hm⟩; exact ⟨f, hp.mem_iff.mp hf, hm⟩
    · rintro ⟨f, hf, hm⟩; exact ⟨f, hp.mem_iff.mpr hf, hm⟩

/-- Witness for C5 at a concrete two-clause set and entry. -/
theorem c5_witness :
    setMatches [{ user_owner := some 5, group_owner := none, permissions := none },
                { user_owner := none, group_owner := some 7, permissions := none }]
        5 7 (permissionBlockOfMode 420)
      = setMatches [{ user_owner := none, group_owner := some 7, permissions := none },
                    { user_owner := some 5, group_owner := none, permissions := none }]
        5 7 (permissionBlockOfMode 420) :=
  (c5_set_match_is_disjunction_and_order_invariant
      { filters := [{ user_owner := some 5, group_owner := none, permissions := none },
                    { user_owner := none, group_owner := some 7, permissions := none }] }
      5 7 (permissionBlockOfMode 420)).2
    { filters := [{ user_owner := none, group_owner := some 7, permissions := none },
                  { user_owner := some 5, group_owner := none, permissions := none }] }
    (List.Perm.swap
      ({ user_owner := none, group_owner := some 7, permissions := none } : Filter)
      ({ user_owner := some 5, group_owner := none, permissions := none } : Filter) [])

/-- C6: permission compatibility is the component-wise check over the
nine positions, a position with a wildcard on either side being ignored;
and a clause whose pattern is all wildcards, with no owner or group
constraint, matches every entry. -/
theorem c6_componentwise_compatibility_and_wildcard_reflexivity :
    ∀ (fp ep : PermissionBlock),
      (fp.is_compatible ep = true ↔
        ∀ pr ∈ fp.states.zip ep.states,
          pr.1 = PermissionState.WILDCARD ∨ pr.2 = PermissionState.WILDCARD ∨ pr.1 = pr.2)
      ∧ ∀ (uid gid : Nat),
          filterMatches { user_owner := none, group_owner := none,
                          permissions := some wildcardBlock } uid gid ep = true := by
  intro fp ep
  obtain ⟨⟨a1, a2, a3⟩, ⟨b1, b2, b3⟩, ⟨c1, c2, c3⟩⟩ := fp
  obtain ⟨⟨d1, d2, d3⟩, ⟨e1, e2, e3⟩, ⟨f1, f2, f3⟩⟩ := ep
  constructor
  · simp [PermissionBlock.is_compatible, PartialPermissionBlock.is_compatible,
          PermissionBlock.states, checkPos_eq_true, and_assoc]
  · intro uid gid
    simp [filterMatches, wildcardBlock, PermissionBlock.is_compatible,
          PartialPermissionBlock.is_compatible, checkPos]

/-- Witness for C6 at a concrete filter pattern and entry. -/
theorem c6_witness :
    filterMatches { user_owner := none, group_owner := none,
                    permissions := some wildcardBlock }
      1000 1000 (permissionBlockOfMode 420) = true :=
  (c6_componentwise_compatibility_and_wildcard_reflexivity
      wildcardBlock (permissionBlockOfMode 420)).2 1000 1000

set_option maxRecDepth 8192 in
/-- C8: decoding any mode in `[0, 511]` and rendering it yields nine
characters drawn from `r`, `w`, `x`, `-`, never a star: metadata-derived
blocks hold no wildcard. -/
theorem c8_decode_render_never_wildcard :
    ∀ m : Nat, m ≤ 511 →
      (permissionBlockOfMode m).render.length = 9 ∧
      ∀ c ∈ (permissionBlockOfMode m).render,
        c ≠ '*' ∧ (c = 'r' ∨ c = 'w' ∨ c = 'x' ∨ c = '-') := by
  decide

/-- Witness for C8 at mode 493 (octal 755). -/
theorem c8_witness :
    (permissionBlockOfMode 493).render.length = 9 ∧
    ∀ c ∈ (permissionBlockOfMode 493).render,
      c ≠ '*' ∧ (c = 'r' ∨ c = 'w' ∨ c = 'x' ∨ c = '-') :=
  c8_decode_render_never_wildcard 493 (by decide)

theorem splitComma_ne_nil (cs : List Char) : splitComma cs ≠ [] := by
  induction cs with
  | nil => simp [splitComma]
  | cons c rest ih =>
    simp only [splitComma]
    cases h : splitComma rest with
    | nil => simp
    | cons p ps => by_cases hcomma : c = ',' <;> simp [hcomma]

theorem from_str_parts_all_comma (cs : List Char) (h : ∀ c ∈ cs, c = ',') :
    from_str_parts (splitComma cs) = Except.ok [] := by
  induction cs with
  | nil => rfl
  | cons c rest ih =>
    have hc : c = ',' := h c (by simp)
    have hrest : ∀ x ∈ rest, x = ',' := fun x hx => h x (by simp [hx])
    subst hc
    have hih := ih hrest
    cases hs : splitComma rest with
    | nil => exact absurd hs (splitComma_ne_nil rest)
    | cons p ps =>
      rw [hs] at hih
      have hsplit : splitComma (',' :: rest) = [] :: p :: ps := by
        simp [splitComma, hs]
      rw [hsplit]
      have h0 : from_str_parts ([] :: p :: ps) = from_str_parts (p :: ps) := rfl
      rw [h0]
      exact hih

/-- C9: the empty policy string, and every policy string made of commas
only, fails with the "no valid filter provided" error instead of
producing an empty set. -/
theorem c9_empty_or_separator_only_input_rejected :
    ∀ s : String, (∀ c ∈ s.data, c = ',') →
      FilterSet.from_str s = Except.error "No valid filter provided" := by
  intro s h
  unfold FilterSet.from_str
  rw [from_str_parts_all_comma s.data h]
  rfl

/-- Witness for C9 at the separator-only string of two commas. -/
theorem c9_witness :
    FilterSet.from_str ",," = Except.error "No valid filter provided" :=
  c9_empty_or_separator_only_input_rejected ",," (by decide)

theorem parse_perm_char_ok (letter c : Char) (h : c = letter ∨ c = '-' ∨ c = '*') :
    ∃ s, parse_perm_char letter c = Except.ok s ∧ stateChar letter s = c := by
  by_cases h1 : c = '*'
  · subst h1
    exact ⟨PermissionState.WILDCARD, by simp [parse_perm_char], rfl⟩
  · by_cases h2 : c = '-'
    · subst h2
      exact ⟨PermissionState.UNSET, by simp [parse_perm_char], rfl⟩
    · have hcl : c = letter := by tauto
      subst hcl
      refine ⟨PermissionState.SET, ?_, rfl⟩
      simp [parse_perm_char, h1, h2]

theorem safe_from_chars_ok_render (a b c : Char)
    (ha : a = 'r' ∨ a = '-' ∨ a = '*')
    (hb : b = 'w' ∨ b = '-' ∨ b = '*')
    (hc : c = 'x' ∨ c = '-' ∨ c = '*') :
    ∃ p, safe_from_chars [a, b, c] = Except.ok p ∧ p.render = [a, b, c] := by
  have hascii : ([a, b, c]).all (fun ch => ch.toNat < 128) = true := by
    rcases ha with rfl | rfl | rfl <;> rcases hb with rfl | rfl | rfl <;>
      rcases hc with rfl | rfl | rfl <;> decide
  obtain ⟨s1, e1, r1⟩ := parse_perm_char_ok 'r' a ha
  obtain ⟨s2, e2, r2⟩ := parse_perm_char_ok 'w' b hb
  obtain ⟨s3, e3, r3⟩ := parse_perm_char_ok 'x' c hc
  refine ⟨⟨s1, s2, s3⟩, ?_, ?_⟩
  · simp [safe_from_chars, hascii, e1, e2, e3]
  · simp [PartialPermissionBlock.render, r1, r2, r3]

/-- C7: parsing any valid 9-character permission pattern and rendering
the resulting block reproduces the pattern exactly. -/
theorem c7_pattern_parse_render_round_trip :
    ∀ cs : List Char, cs.length = 9 → permPatternMatch cs = true →
      (parsePermPattern cs).map PermissionBlock.render = Except.ok cs := by
  intro cs hlen hm
  rcases cs with _ | ⟨x1, cs⟩; · simp at hlen
  rcases cs with _ | ⟨x2, cs⟩; · simp at hlen
  rcases cs with _ | ⟨x3, cs⟩; · simp at hlen
  rcases cs with _ | ⟨x4, cs⟩; · simp at hlen
  rcases cs with _ | ⟨x5, cs⟩; · simp at hlen
  rcases cs with _ | ⟨x6, cs⟩; · simp at hlen
  rcases cs with _ | ⟨x7, cs⟩; · simp at hlen
  rcases cs with _ | ⟨x8, cs⟩; · simp at hlen
  rcases cs with _ | ⟨x9, cs⟩; · simp at hlen
  have hnil : cs = [] := by
    have hz : cs.length = 0 := by simpa using hlen
    simpa [List.length_eq_zero] using hz
  subst hnil
  simp only [permPatternMatch, group_chars_match, Bool.and_eq_true, Bool.or_eq_true,
    beq_iff_eq, and_assoc, or_assoc] at hm
  obtain ⟨h1, h2, h3, h4, h5, h6, h7, h8, h9⟩ := hm
  obtain ⟨p1, e1, r1⟩ := safe_from_chars_ok_render x1 x2 x3 h1 h2 h3
  obtain ⟨p2, e2, r2⟩ := safe_from_chars_ok_render x4 x5 x6 h4 h5 h6
  obtain ⟨p3, e3, r3⟩ := safe_from_chars_ok_render x7 x8 x9 h7 h8 h9
  have ht1 : ([x1, x2, x3, x4, x5, x6, x7, x8, x9].take 3) = [x1, x2, x3] := rfl
  have ht2 : (([x1, x2, x3, x4, x5, x6, x7, x8, x9].drop 3).take 3) = [x4, x5, x6] := rfl
  have ht3 : (([x1, x2, x3, x4, x5, x6, x7, x8, x9].drop 6).take 3) = [x7, x8, x9] := rfl
  simp [parsePermPattern, ht1, ht2, ht3, e1, e2, e3, Except.map,
    PermissionBlock.render, r1, r2, r3]

/-- Witness for C7 at the pattern of octal mode 644 with a wildcard. -/
theorem c7_witness :
    (parsePermPattern "rw-r--*--".data).map PermissionBlock.render =
      Except.ok "rw-r--*--".data :=
  c7_pattern_parse_render_round_trip "rw-r--*--".data (by decide) (by decide)

/-- A marker occurrence at index `i`: the marker letter sits at `i` and is
immediately followed by a decimal digit. -/
def markerOcc (m : Char) (cs : List Char) (i : Nat) : Prop :=
  cs[i]? = some m ∧ (cs[i + 1]?.any Char.isDigit) = true

instance (m : Char) (cs : List Char) (i : Nat) : Decidable (markerOcc m cs i) :=
  inferInstanceAs (Decidable (And _ _))

theorem markerOcc_cons_succ (m c : Char) (cs : List Char) (i : Nat) :
    markerOcc m (c :: cs) (i + 1) ↔ markerOcc m cs i := by
  simp [markerOcc, List.getElem?_cons_succ]

theorem digitRun_ne_nil_iff (cs : List Char) :
    digitRun cs ≠ [] ↔ (cs[0]?.any Char.isDigit) = true := by
  cases cs with
  | nil => simp [digitRun]
  | cons c rest => by_cases hd : c.isDigit <;> simp [digitRun, hd]

theorem markerCaptureAux_eq_none (m : Char) (cs : List Char)
    (h : ∀ i, ¬ markerOcc m cs i) : markerCaptureAux m cs = none := by
  induction cs with
  | nil => rfl
  | cons c rest ih =>
    have hrest : ∀ i, ¬ markerOcc m rest i := fun i hi =>
      h (i + 1) ((markerOcc_cons_succ m c rest i).mpr hi)
    have h0 : ¬ (c = m ∧ digitRun rest ≠ []) := by
      rintro ⟨rfl, hdr⟩
      refine h 0 ⟨by simp, ?_⟩
      have hd0 := (digitRun_ne_nil_iff rest).mp hdr
      simpa [List.getElem?_cons_succ] using hd0
    simp only [markerCaptureAux, ih hrest, if_neg h0]

theorem markerCaptureAux_last (m : Char) (cs : List Char) (i : Nat)
    (hocc : markerOcc m cs i)
    (hlast : ∀ j, i < j → ¬ markerOcc m cs j) :
    markerCaptureAux m cs = some (digitRun (cs.drop (i + 1))) := by
  induction cs generalizing i with
  | nil => exact absurd hocc.1 (by simp)
  | cons c rest ih =>
    cases i with
    | zero =>
      have hrest : ∀ j, ¬ markerOcc m rest j := fun j hj =>
        hlast (j + 1) (Nat.succ_pos j) ((markerOcc_cons_succ m c rest j).mpr hj)
      have hc : c = m := by
        have h0 := hocc.1
        simpa using h0
      have hd : digitRun rest ≠ [] := by
        rw [digitRun_ne_nil_iff]
        have h1 := hocc.2
        simpa [List.getElem?_cons_succ] using h1
      simp [markerCaptureAux, markerCaptureAux_eq_none m rest hrest,
        if_pos (And.intro hc hd)]
    | succ i2 =>
      have hocc2 : markerOcc m rest i2 := (markerOcc_cons_succ m c rest i2).mp hocc
      have hlast2 : ∀ j, i2 < j → ¬ markerOcc m rest j := fun j hj hoj =>
        hlast (j + 1) (Nat.succ_lt_succ hj) ((markerOcc_cons_succ m c rest j).mpr hoj)
      simp [markerCaptureAux, ih i2 hocc2 hlast2]

theorem markerValue_ok (m : Char) (part : List Char) (v : Option Nat)
    (h : markerValue m part = Except.ok v) :
    v = (markerCapture m part).map digitsToNat := by
  cases hmc : markerCapture m part with
  | none =>
    have hv : markerValue m part = Except.ok none := by
      simp [markerValue, hmc]
    rw [hv] at h
    simp at h
    simp [h]
  | some ds =>
    by_cases hle : digitsToNat ds ≤ 4294967295
    · have hv : markerValue m part = Except.ok (some (digitsToNat ds)) := by
        simp [markerValue, hmc, parseU32, hle]
      rw [hv] at h
      simp at h
      simp [h]
    · have hv : markerValue m part =
          Except.error "number too large to fit in target type" := by
        simp [markerValue, hmc, parseU32, hle]
      rw [hv] at h
      simp at h

theorem parsePart_owner_fields (part : List Char) (f : Filter)
    (h : parsePart part = Except.ok (some f)) :
    f.user_owner = (markerCapture 'u' part).map digitsToNat
    ∧ f.group_owner = (markerCapture 'g' part).map digitsToNat := by
  cases hperm : (if permPatternMatch part then (parsePermPattern part).map Option.some
                 else Except.ok none) with
  | error e =>
    have hps : parsePart part = Except.error e := by
      unfold parsePart
      rw [hperm]
    rw [hps] at h
    simp at h
  | ok permissions =>
    cases hu : markerValue 'u' part with
    | error e =>
      have hps : parsePart part = Except.error e := by
        unfold parsePart
        rw [hperm]
        simp [hu]
      rw [hps] at h
      simp at h
    | ok user_owner =>
      cases hg : markerValue 'g' part with
      | error e =>
        have hps : parsePart part = Except.error e := by
          unfold parsePart
          rw [hperm]
          simp [hu, hg]
        rw [hps] at h
        simp at h
      | ok group_owner =>
        by_cases hcond : user_owner = none ∧ group_owner = none ∧ permissions = none
        · have hps : parsePart part = Except.ok none := by
            unfold parsePart
            rw [hperm]
            simp [hu, hg, hcond]
          rw [hps] at h
          simp at h
        · have hps : parsePart part =
              Except.ok (some ⟨user_owner, group_owner, permissions⟩) := by
            unfold parsePart
            rw [hperm]
            simp [hu, hg, hcond]
          rw [hps] at h
          simp only [Except.ok.injEq, Option.some.injEq] at h
          subst h
          exact ⟨markerValue_ok 'u' part user_owner hu,
                 markerValue_ok 'g' part group_owner hg⟩

/-- C2 amended: the parser honors the LAST occurrence of the marker letter
followed by digits, not the first (the greedy leading wildcard of the
regex backtracks from the right); the filter's owner and group ids are the
values of the captures so selected. -/
theorem c2_amended_last_marker_occurrence_is_honored :
    (∀ (m : Char) (part : List Char) (i : Nat),
       '\n' ∉ part → markerOcc m part i →
       (∀ j, j < part.length → i < j → ¬ markerOcc m part j) →
       markerCapture m part = some (digitRun (part.drop (i + 1))))
    ∧ (∀ (part : List Char) (f : Filter), parsePart part = Except.ok (some f) →
         f.user_owner = (markerCapture 'u' part).map digitsToNat
         ∧ f.group_owner = (markerCapture 'g' part).map digitsToNat) := by
  constructor
  · intro m part i hnl hocc hlast
    have hlast2 : ∀ j, i < j → ¬ markerOcc m part j := by
      intro j hj hoj
      have hjlen : j < part.length := by
        by_contra hge
        have hnone : part[j]? = none := List.getElem?_eq_none (Nat.le_of_not_lt hge)
        have h1 := hoj.1
        rw [hnone] at h1
        exact Option.noConfusion h1
      exact hlast j hjlen hj hoj
    unfold markerCapture
    rw [if_neg hnl]
    exact markerCaptureAux_last m part i hocc hlast2
  · exact parsePart_owner_fields

/-- Witness for C2's amended statement: in the clause `u1u2` the last
occurrence wins and the capture is the digit run `2`. -/
theorem c2_witness :
    markerCapture 'u' "u1u2".data = some ['2'] :=
  c2_amended_last_marker_occurrence_is_honored.1 'u' "u1u2".data 2
    (by decide) (by decide) (by decide)

/-- Counterexample to C2 as stated: the clause `u1u2` has its first
marker occurrence at the start with digit run `1`, but parsing yields
owner id 2 — the first occurrence is not honored. -/
theorem c2_counterexample_first_u_occurrence_not_honored :
    FilterSet.from_str "u1u2" =
      Except.ok { filters := [{ user_owner := some 2, group_owner := none,
                                permissions := none }] }
    ∧ firstMarkerCapture 'u' "u1u2".data = some ['1']
    ∧ digitsToNat ['1'] = 1 := by decide

theorem parsePermPattern_ok_of_match (cs : List Char)
    (h : permPatternMatch cs = true) :
    ∃ pb, parsePermPattern cs = Except.ok pb := by
  rcases cs with _ | ⟨x1, cs⟩; · simp [permPatternMatch] at h
  rcases cs with _ | ⟨x2, cs⟩; · simp [permPatternMatch] at h
  rcases cs with _ | ⟨x3, cs⟩; · simp [permPatternMatch] at h
  rcases cs with _ | ⟨x4, cs⟩; · simp [permPatternMatch] at h
  rcases cs with _ | ⟨x5, cs⟩; · simp [permPatternMatch] at h
  rcases cs with _ | ⟨x6, cs⟩; · simp [permPatternMatch] at h
  rcases cs with _ | ⟨x7, cs⟩; · simp [permPatternMatch] at h
  rcases cs with _ | ⟨x8, cs⟩; · simp [permPatternMatch] at h
  rcases cs with _ | ⟨x9, cs⟩; · simp [permPatternMatch] at h
  simp only [permPatternMatch, group_chars_match, Bool.and_eq_true, Bool.or_eq_true,
    beq_iff_eq, and_assoc, or_assoc] at h
  obtain ⟨h1, h2, h3, h4, h5, h6, h7, h8, h9⟩ := h
  obtain ⟨p1, e1, _⟩ := safe_from_chars_ok_render x1 x2 x3 h1 h2 h3
  obtain ⟨p2, e2, _⟩ := safe_from_chars_ok_render x4 x5 x6 h4 h5 h6
  obtain ⟨p3, e3, _⟩ := safe_from_chars_ok_render x7 x8 x9 h7 h8 h9
  exact ⟨⟨p1, p2, p3⟩, by simp [parsePermPattern, e1, e2, e3]⟩

theorem markerValue_error_of_overflow (m : Char) (part ds : List Char)
    (hcap : markerCapture m part = some ds)
    (hbig : 4294967295 < digitsToNat ds) :
    markerValue m part = Except.error "number too large to fit in target type" := by
  have hn : ¬ digitsToNat ds ≤ 4294967295 := by omega
  simp [markerValue, hcap, parseU32, hn]

theorem parsePart_error_of_overflow (part : List Char) (m : Char) (ds : List Char)
    (hm : m = 'u' ∨ m = 'g')
    (hcap : markerCapture m part = some ds)
    (hbig : 4294967295 < digitsToNat ds) :
    ∃ e, parsePart part = Except.error e := by
  have hperm : ∃ po, (if permPatternMatch part
      then (parsePermPattern part).map Option.some
      else Except.ok none) = Except.ok po := by
    cases hpm : permPatternMatch part with
    | false => exact ⟨none, by simp⟩
    | true =>
      obtain ⟨pb, hpb⟩ := parsePermPattern_ok_of_match part hpm
      exact ⟨some pb, by simp [hpb, Except.map]⟩
  obtain ⟨po, hpo⟩ := hperm
  rcases hm with rfl | rfl
  · refine ⟨"number too large to fit in target type", ?_⟩
    unfold parsePart
    rw [hpo, markerValue_error_of_overflow 'u' part ds hcap hbig]
  · cases hu : markerValue 'u' part with
    | error e =>
      refine ⟨e, ?_⟩
      unfold parsePart
      rw [hpo, hu]
    | ok uo =>
      refine ⟨"number too large to fit in target type", ?_⟩
      unfold parsePart
      rw [hpo, hu, markerValue_error_of_overflow 'g' part ds hcap hbig]

theorem from_str_parts_error_of_mem (parts : List (List Char)) (p : List Char)
    (hp : p ∈ parts) (e : String) (he : parsePart p = Except.error e) :
    ∃ msg, from_str_parts parts = Except.error msg := by
  induction parts with
  | nil => simp at hp
  | cons q rest ih =>
    rcases List.mem_cons.mp hp with rfl | hmem
    · exact ⟨e, by simp [from_str_parts, he]⟩
    · cases hq : parsePart q with
      | error e2 => exact ⟨e2, by simp [from_str_parts, hq]⟩
      | ok v =>
        obtain ⟨msg, hmsg⟩ := ih hmem
        cases v with
        | none => exact ⟨msg, by simp [from_str_parts, hq, hmsg]⟩
        | some f => exact ⟨msg, by simp [from_str_parts, hq, hmsg]⟩

/-- C10 amended: an id whose digit run overflows 32 bits is a hard parse
error exactly when it is the honored capture (the last marker occurrence
of its clause); the whole policy string is then rejected even if other
clauses are valid. -/
theorem c10_amended_honored_oversized_id_is_hard_error :
    ∀ (s : String) (part ds : List Char) (m : Char),
      (m = 'u' ∨ m = 'g') →
      part ∈ splitComma s.data →
      markerCapture m part = some ds →
      4294967295 < digitsToNat ds →
      ∃ msg, FilterSet.from_str s = Except.error msg := by
  intro s part ds m hm hmem hcap hbig
  obtain ⟨e, he⟩ := parsePart_error_of_overflow part m ds hm hcap hbig
  obtain ⟨msg, hmsg⟩ := from_str_parts_error_of_mem (splitComma s.data) part hmem e he
  exact ⟨msg, by simp [FilterSet.from_str, hmsg]⟩

/-- Witness for C10's amended statement: a lone oversized owner id in the
first clause aborts the parse even though the second clause is valid. -/
theorem c10_witness :
    ∃ msg, FilterSet.from_str "u4294967296,g1000" = Except.error msg :=
  c10_amended_honored_oversized_id_is_hard_error "u4294967296,g1000"
    "u4294967296".data ['4', '2', '9', '4', '9', '6', '7', '2', '9', '6'] 'u'
    (Or.inl rfl) (by decide) (by decide) (by decide)

/-- Counterexample to C10 as stated: the clause `u4294967296u5` contains
`u` followed by the digit run 4294967296, which exceeds the unsigned
32-bit maximum, yet the whole string parses successfully (the honored
capture is the later occurrence `u5`). -/
theorem c10_counterexample_oversized_run_at_unhonored_occurrence_ignored :
    FilterSet.from_str "u4294967296u5" =
      Except.ok { filters := [{ user_owner := some 5, group_owner := none,
                                permissions := none }] }
    ∧ firstMarkerCapture 'u' "u4294967296u5".data =
        some ['4', '2', '9', '4', '9', '6', '7', '2', '9', '6']
    ∧ 4294967295 < digitsToNat ['4', '2', '9', '4', '9', '6', '7', '2', '9', '6'] := by
  decide

/-- C3 amended: a clause whose start does not match the anchored pattern
regex is never a hard error on account of its permission characters: it
simply carries no permission constraint, and when it also yields no owner
and no group id it is silently dropped, leaving the remaining clauses to
parse on their own. -/
theorem c3_amended_malformed_pattern_clause_silently_dropped :
    (∀ part : List Char, permPatternMatch part = false →
       markerCapture 'u' part = none → markerCapture 'g' part = none →
       parsePart part = Except.ok none)
    ∧ (∀ (part : List Char) (rest : List (List Char)),
         parsePart part = Except.ok none →
         from_str_parts (part :: rest) = from_str_parts rest) := by
  constructor
  · intro part h1 h2 h3
    simp [parsePart, markerValue, h1, h2, h3]
  · intro part rest h
    simp [from_str_parts, h]

/-- Witness for C3's amended statement: the malformed clause `wwx` is
dropped and the rest of the list parses on its own. -/
theorem c3_witness :
    parsePart "wwx".data = Except.ok none ∧
    from_str_parts ["wwx".data, "g1000".data] = from_str_parts ["g1000".data] := by
  have h1 := c3_amended_malformed_pattern_clause_silently_dropped.1 "wwx".data
    (by decide) (by decide) (by decide)
  exact ⟨h1, c3_amended_malformed_pattern_clause_silently_dropped.2
    "wwx".data ["g1000".data] h1⟩

/-- Counterexample to C3 as stated: `wwx` is a malformed permission group
by the code's own validator (letter in the wrong slot), yet the policy
string `wwx,g1000` parses successfully — the malformed clause is silently
dropped because the anchored pattern regex does not match it, so the
validator that would reject it is never reached. -/
theorem c3_counterexample_malformed_pattern_does_not_abort :
    FilterSet.from_str "wwx,g1000" =
      Except.ok { filters := [{ user_owner := none, group_owner := some 1000,
                                permissions := none }] }
    ∧ safe_from_chars "wwx".data =
        Except.error "Invalid character w in permission block."
    ∧ permPatternMatch "wwx".data = false := by decide

/-- C4 amended: with no configured filter set, directories and regular
files are skipped before any filter evaluation — but a node that is
neither (fifo, socket, device) falls through to the fallback filter built
from the base directory's owner and group, and is reported when it fails
that comparison. -/
theorem c4_amended_fallback_reachable_for_other_kinds :
    ∀ (node : FSNode) (config : Config) (base m : NodeMeta) (sym : Bool),
      config.directory_filter = none → config.file_filter = none →
      node.meta = Except.ok m →
      ((m.kind = NodeKind.dir ∨ m.kind = NodeKind.file) →
        check_object node config base sym = Except.ok [])
      ∧ (m.kind = NodeKind.other →
          check_object node config base sym =
            (if setMatches [{ user_owner := some base.uid, group_owner := some base.gid,
                              permissions := none }] m.uid m.gid
                 (permissionBlockOfMode m.mode)
             then Except.ok []
             else Except.ok [Event.violation (if sym then "l" else "-")
                    (permissionBlockOfMode m.mode) m.uid m.gid node.path])) := by
  intro node config base m sym hdir hfile hmeta
  constructor
  · rintro (hk | hk) <;>
      simp [check_object, hmeta, hk, hdir, hfile]
  · intro hk
    by_cases hs : setMatches [(⟨some base.uid, some base.gid, none⟩ : Filter)]
        m.uid m.gid (permissionBlockOfMode m.mode) = true <;>
      simp [check_object, hmeta, hk, hdir, hfile, hs]

/-- Witness for C4's amended statement at a concrete socket-like node. -/
theorem c4_witness :
    check_object
        (FSNode.mk "/base/sock"
          (Except.ok { kind := NodeKind.other, uid := 1000, gid := 1000, mode := 420 })
          false none FSChildren.nil)
        { directory_filter := none, file_filter := none, ignore_symlinks := false }
        { kind := NodeKind.dir, uid := 0, gid := 0, mode := 493 } false
      = (if setMatches [{ user_owner := some 0, group_owner := some 0,
                          permissions := none }] 1000 1000 (permissionBlockOfMode 420)
         then Except.ok []
         else Except.ok [Event.violation "-" (permissionBlockOfMode 420)
                1000 1000 "/base/sock"]) :=
  ((c4_amended_fallback_reachable_for_other_kinds
      (FSNode.mk "/base/sock"
        (Except.ok { kind := NodeKind.other, uid := 1000, gid := 1000, mode := 420 })
        false none FSChildren.nil)
      { directory_filter := none, file_filter := none, ignore_symlinks := false }
      { kind := NodeKind.dir, uid := 0, gid := 0, mode := 493 }
      { kind := NodeKind.other, uid := 1000, gid := 1000, mode := 420 }
      false rfl rfl rfl).2 rfl)

/-- Counterexample to C4 as stated: with neither filter set configured, a
node that is neither a directory nor a regular file is NOT skipped — it is
evaluated against the fallback filter built from the base directory's
owner and group and, failing it, is reported as a violation. -/
theorem c4_counterexample_other_kind_node_reported :
    check_object
        (FSNode.mk "/base/sock"
          (Except.ok { kind := NodeKind.other, uid := 1000, gid := 1000, mode := 420 })
          false none FSChildren.nil)
        { directory_filter := none, file_filter := none, ignore_symlinks := false }
        { kind := NodeKind.dir, uid := 0, gid := 0, mode := 493 } false
      = Except.ok [Event.violation "-" (permissionBlockOfMode 420)
            1000 1000 "/base/sock"] := by decide

/-- The base directory of the C1 scenario: a readable directory. -/
def c1Base : NodeMeta := { kind := NodeKind.dir, uid := 0, gid := 0, mode := 493 }

/-- A non-symlink child whose metadata cannot be retrieved. -/
def c1BadChild : FSNode :=
  FSNode.mk "/base/a" (Except.error "permission denied") false none FSChildren.nil

/-- A sibling file that violates the configured file filter. -/
def c1Sibling : FSNode :=
  FSNode.mk "/base/b"
    (Except.ok { kind := NodeKind.file, uid := 1000, gid := 1000, mode := 420 })
    false none FSChildren.nil

/-- A file filter requiring owner id 0, which the sibling violates. -/
def c1Config : Config :=
  { directory_filter := none,
    file_filter := some { filters := [{ user_owner := some 0, group_owner := none,
                                        permissions := none }] },
    ignore_symlinks := false }

/-- The tree with the unreadable child listed before the sibling. -/
def c1Tree : FSNode :=
  FSNode.mk "/base" (Except.ok c1Base) false none
    (FSChildren.consNode c1BadChild (FSChildren.consNode c1Sibling FSChildren.nil))

/-- The same tree with the unreadable child removed. -/
def c1TreeWithoutBadChild : FSNode :=
  FSNode.mk "/base" (Except.ok c1Base) false none
    (FSChildren.consNode c1Sibling FSChildren.nil)

/-- Counterexample to C1 as stated: when the metadata of the non-symlink
child `/base/a` cannot be retrieved, the whole walk returns that error —
no warning is reported, the sibling `/base/b` is never visited, and its
violation (which the walk over the same tree without the bad child does
report) is lost. -/
theorem c1_counterexample_descendant_metadata_error_aborts_walk :
    run c1Config c1Tree = ([], some "permission denied")
    ∧ run c1Config c1TreeWithoutBadChild =
        ([Event.violation "-" (permissionBlockOfMode 420) 1000 1000 "/base/b"], none) := by
  decide

/-- C1 amended: a metadata-retrieval failure is a non-fatal, reported,
skip-and-continue event only for SYMLINK descendants (and a failed
directory entry is likewise warned about and skipped); for a non-symlink
descendant the failure propagates out of the recursive call, aborting the
whole walk with an error, without a warning and without visiting the
remaining siblings. -/
theorem c1_amended_only_symlink_descendant_metadata_errors_nonfatal :
    (∀ (config : Config) (bm : NodeMeta) (pp : String) (child : FSNode)
       (rest : FSChildren) (e : String),
       child.isSymlink = true → config.ignore_symlinks = false →
       child.meta = Except.error e →
       processChildren config bm pp (FSChildren.consNode child rest) =
         (Event.accessWarning ("reading symlink " ++ child.path ++ ": " ++ e
            ++ ". The symlink might be broken.")
            :: (processChildren config bm pp rest).1,
          (processChildren config bm pp rest).2))
    ∧ (∀ (config : Config) (bm : NodeMeta) (pp msg : String) (rest : FSChildren),
        processChildren config bm pp (FSChildren.consErr msg rest) =
          (Event.accessWarning ("accessing child of " ++ pp ++ ": " ++ msg)
             :: (processChildren config bm pp rest).1,
           (processChildren config bm pp rest).2))
    ∧ (∀ (config : Config) (bm : NodeMeta) (pp : String) (child : FSNode)
        (rest : FSChildren) (e : String),
        child.isSymlink = false → child.meta = Except.error e →
        processChildren config bm pp (FSChildren.consNode child rest) = ([], some e)) := by
  refine ⟨?_, ?_, ?_⟩
  · intro config bm pp child rest e hsym hign hmeta
    simp [processChildren, hsym, hign, check_object, hmeta]
  · intro config bm pp msg rest
    simp [processChildren]
  · intro config bm pp child rest e hsym hmeta
    obtain ⟨path, meta, s, rde, children⟩ := child
    simp only [FSNode.isSymlink] at hsym
    simp only [FSNode.meta] at hmeta
    subst hsym hmeta
    simp [processChildren, run_recursive, FSNode.isSymlink, FSNode.meta,
      FSNode.path, FSNode.readDirError]

/-- Witness for C1's amended statement: a broken symlink child produces a
warning and the walk continues with an empty sibling list. -/
theorem c1_witness :
    processChildren c1Config c1Base "/base"
        (FSChildren.consNode
          (FSNode.mk "/base/l" (Except.error "no such file") true none FSChildren.nil)
          FSChildren.nil) =
      ([Event.accessWarning
          ("reading symlink /base/l: no such file. The symlink might be broken.")], none) :=
  c1_amended_only_symlink_descendant_metadata_errors_nonfatal.1
    c1Config c1Base "/base"
    (FSNode.mk "/base/l" (Except.error "no such file") true none FSChildren.nil)
    FSChildren.nil "no such file" rfl rfl rfl

end Permsearch
